import Mathlib

/-!
Verification of the row synthesizer in `src/deepHaven/executions.py`.

The script declares a Deephaven ticking table whose columns are derived once
per row from the row index `ii` and from fresh uniform draws of
`Math.random()` (uniform on `[0,1)`).  We embed one row-synthesis step as a
pure function of the row index and of the record of uniform draws the row
consumes, with real numbers modelled by `ℚ` and Java's `Math.round` modelled
exactly as `⌊x + 1/2⌋`.
-/

/-- The uniform draws in `[0,1)` that one row generation consumes, one per
call of `Math.random()` in the column expressions, in source order. -/
structure RandDraws where
  uQuantity : ℚ
  uPrice : ℚ
  uYield : ℚ
  uCounterparty : ℚ
  uStatus : ℚ
deriving DecidableEq

/-- One synthesized execution row, fields as in the column list. -/
structure ExecutionRecord where
  ExecId : String
  OrderId : String
  Symbol : String
  CUSIP : String
  Side : String
  Quantity : ℤ
  Price : ℚ
  Yield : ℚ
  Notional : ℚ
  Venue : String
  Counterparty : String
  ExecStatus : String
  Trader : String
  Book : String

/-- Java `Math.round` on a nonnegative double: round half up, `⌊x + 1/2⌋`. -/
def javaRound (x : ℚ) : ℤ := ⌊x + 1/2⌋

/-- Java `String.format` with a `%0wd` pattern on a nonnegative integer:
decimal digits left-padded with zeros to a minimum width `w`. -/
def formatD (w : Nat) (n : Nat) : String :=
  String.mk (List.replicate (w - (toString n).length) '0') ++ toString n

/-- The `Symbol` array of the script. -/
def symbols : List String :=
  ["UST 2Y", "UST 5Y", "UST 10Y", "UST 30Y", "SOFR 3M", "TIPS 10Y"]

/-- The `CUSIP` array of the script. -/
def cusips : List String :=
  ["91282CJL6", "91282CJM4", "91282CJN2", "912810TM0", "91282CJP7", "912810TP3"]

/-- The `Venue` array of the script. -/
def venues : List String := ["D2C", "D2D", "ECN", "RFQ", "CLOB"]

/-- The `Counterparty` array of the script. -/
def counterparties : List String :=
  ["GS", "JPM", "MS", "BARC", "CITI", "BofA", "HSBC", "DB"]

/-- The `ExecStatus` array of the script (`FILLED` appears three times). -/
def statuses : List String :=
  ["FILLED", "FILLED", "FILLED", "PARTIAL", "REJECTED"]

/-- The `Trader` array of the script. -/
def traders : List String := ["JSMITH", "ADOE", "MWONG", "KPATEL"]

/-- The `Book` array of the script. -/
def books : List String := ["RATES-NY", "RATES-LDN", "RATES-TKY"]

/-- One row of the ticking table: every column expression of the `update`
call in `executions.py`, evaluated at row index `ii` with the uniform draws
`r`.  `Notional` refers to the `Quantity` and `Price` columns of the same
row, as Deephaven column expressions do. -/
def synthesize (ii : Nat) (r : RandDraws) : ExecutionRecord :=
  let quantity : ℤ := javaRound (r.uQuantity * 50 + 1) * 1000000
  let price : ℚ := 99 + (javaRound (r.uPrice * 400) : ℚ) / 128
  { ExecId := "EXE-" ++ formatD 6 ii
    OrderId := "ORD-" ++ formatD 4 (ii % 500)
    Symbol := symbols.getD (ii % 6) ("")
    CUSIP := cusips.getD (ii % 6) ("")
    Side := if ii % 2 = 0 then ("BUY") else ("SELL")
    Quantity := quantity
    Price := price
    Yield := 7/2 + (javaRound (r.uYield * 200) : ℚ) / 100
    Notional := (quantity : ℚ) * price / 100
    Venue := venues.getD (ii % 5) ("")
    Counterparty := counterparties.getD (javaRound (r.uCounterparty * 7)).toNat ("")
    ExecStatus := statuses.getD (javaRound (r.uStatus * 4)).toNat ("")
    Trader := traders.getD (ii % 4) ("")
    Book := books.getD (ii % 3) ("") }

/-- A concrete bundle of draws, all equal to `0`. -/
def drawsA : RandDraws := ⟨0, 0, 0, 0, 0⟩

/-- A concrete bundle of draws, all equal to `9/10`. -/
def drawsB : RandDraws := ⟨9/10, 9/10, 9/10, 9/10, 9/10⟩

/-- C5: for every generated row, Notional equals Quantity * Price / 100
computed from that same row's own Quantity and Price values. -/
theorem c5_notional_from_own_row (ii : Nat) (r : RandDraws) :
    (synthesize ii r).Notional =
      ((synthesize ii r).Quantity : ℚ) * (synthesize ii r).Price / 100 := rfl

/-- C6: for every row index `ii`, Side equals "BUY" if and only if `ii` is
even, and equals "SELL" if and only if `ii` is odd. -/
theorem c6_side_parity (ii : Nat) (r : RandDraws) :
    ((synthesize ii r).Side = "BUY" ↔ ii % 2 = 0) ∧
    ((synthesize ii r).Side = "SELL" ↔ ii % 2 ≠ 0) := by
  have e : (synthesize ii r).Side = if ii % 2 = 0 then ("BUY") else ("SELL") := rfl
  rcases Nat.mod_two_eq_zero_or_one ii with h | h
  · rw [e, if_pos h]
    exact ⟨⟨fun _ => h, fun _ => rfl⟩, ⟨fun hs => absurd hs (by decide), fun hn => absurd h hn⟩⟩
  · rw [e, if_neg (by omega)]
    exact ⟨⟨fun hs => absurd hs (by decide), fun h0 => by omega⟩, ⟨fun _ => by omega, fun _ => rfl⟩⟩

/-- C7: for every generated row, Symbol and CUSIP are looked up at the same
index `ii % 6` into their respective fixed 6-element tables; in particular
at `ii % 6 = 0` they are "UST 2Y" and "91282CJL6". -/
theorem c7_symbol_cusip_paired (ii : Nat) (r : RandDraws) :
    (synthesize ii r).Symbol = symbols.getD (ii % 6) ("") ∧
    (synthesize ii r).CUSIP = cusips.getD (ii % 6) ("") ∧
    (ii % 6 = 0 → (synthesize ii r).Symbol = "UST 2Y" ∧
      (synthesize ii r).CUSIP = "91282CJL6") := by
  refine ⟨rfl, rfl, fun h => ?_⟩
  have e1 : (synthesize ii r).Symbol = symbols.getD (ii % 6) ("") := rfl
  have e2 : (synthesize ii r).CUSIP = cusips.getD (ii % 6) ("") := rfl
  rw [e1, e2, h]
  exact ⟨rfl, rfl⟩

/-- Closed witness for C7 at `ii = 0`. -/
theorem c7_symbol_cusip_paired_witness :
    (synthesize 0 drawsA).Symbol = "UST 2Y" ∧
    (synthesize 0 drawsA).CUSIP = "91282CJL6" :=
  (c7_symbol_cusip_paired 0 drawsA).2.2 rfl

/-- C1 counterexample: at fixed row index the Venue is unchanged when the
entire random-draw bundle changes (here two distinct bundles), while it does
change when only the row index changes — Venue is a function of `ii`, not of
the random source. -/
theorem c1_counterexample :
    drawsA.uQuantity ≠ drawsB.uQuantity ∧
    (synthesize 0 drawsA).Venue = (synthesize 0 drawsB).Venue ∧
    (synthesize 0 drawsA).Venue ≠ (synthesize 1 drawsA).Venue := by
  refine ⟨by norm_num [drawsA, drawsB], rfl, ?_⟩
  have h0 : (synthesize 0 drawsA).Venue = "D2C" := rfl
  have h1 : (synthesize 1 drawsA).Venue = "D2D" := rfl
  rw [h0, h1]
  decide

/-- C1 (amended): Venue is a deterministic lookup into the fixed 5-value
table at index `ii % 5`; it never depends on the random source. -/
theorem c1_venue_deterministic (ii : Nat) (r r' : RandDraws) :
    (synthesize ii r).Venue = (synthesize ii r').Venue ∧
    (synthesize ii r).Venue = venues.getD (ii % 5) ("") := ⟨rfl, rfl⟩

/-- C4 counterexample: a uniform draw of `99/100` makes
`round(u * 50 + 1) = round(50.5) = 51` (Java rounds half up), so Quantity is
51,000,000, outside the claimed range `[1,000,000, 50,000,000]`. -/
theorem c4_counterexample :
    (synthesize 0 ⟨99/100, 0, 0, 0, 0⟩).Quantity = 51000000 ∧
    ¬ (synthesize 0 ⟨99/100, 0, 0, 0, 0⟩).Quantity ≤ 50000000 := by
  have e : (synthesize 0 ⟨99/100, 0, 0, 0, 0⟩).Quantity =
      javaRound ((99/100 : ℚ) * 50 + 1) * 1000000 := rfl
  have h : javaRound ((99/100 : ℚ) * 50 + 1) = 51 := by
    unfold javaRound
    rw [Int.floor_eq_iff]
    norm_num
  rw [e, h]
  norm_num

/-- C4 (amended): for every uniform draw in `[0,1)`, Quantity is a positive
multiple of 1,000,000 in the range `[1,000,000, 51,000,000]` (the upper end
51,000,000 is reachable, at draws of at least `0.99`). -/
theorem c4_quantity_range (ii : Nat) (r : RandDraws)
    (h0 : 0 ≤ r.uQuantity) (h1 : r.uQuantity < 1) :
    1000000 ≤ (synthesize ii r).Quantity ∧
    (synthesize ii r).Quantity ≤ 51000000 ∧
    (1000000 : ℤ) ∣ (synthesize ii r).Quantity := by
  have e : (synthesize ii r).Quantity = javaRound (r.uQuantity * 50 + 1) * 1000000 := rfl
  have hk : javaRound (r.uQuantity * 50 + 1) = ⌊r.uQuantity * 50 + 1 + 1/2⌋ := rfl
  have hlo : 1 ≤ javaRound (r.uQuantity * 50 + 1) := by
    rw [hk]
    exact Int.le_floor.mpr (by push_cast; linarith)
  have hhi : javaRound (r.uQuantity * 50 + 1) < 52 := by
    rw [hk]
    exact Int.floor_lt.mpr (by push_cast; linarith)
  rw [e]
  exact ⟨by omega, by omega, dvd_mul_left 1000000 _⟩

/-- Closed witness for C4 (amended) at zero draws: Quantity is 1,000,000. -/
theorem c4_quantity_range_witness :
    1000000 ≤ (synthesize 0 drawsA).Quantity ∧
    (synthesize 0 drawsA).Quantity ≤ 51000000 ∧
    (1000000 : ℤ) ∣ (synthesize 0 drawsA).Quantity :=
  c4_quantity_range 0 drawsA (by norm_num [drawsA]) (by norm_num [drawsA])

/-- C8: every table lookup while synthesizing a row stays strictly within
bounds: the five modulo-indexed lookups by the table sizes 6, 6, 5, 4, 3, and
the two random-indexed lookups because `round(u * 7) ≤ 7 < 8` and
`round(u * 4) ≤ 4 < 5` for any `u` in `[0,1)`. -/
theorem c8_index_bounds (ii : Nat) (r : RandDraws)
    (_hc0 : 0 ≤ r.uCounterparty) (hc1 : r.uCounterparty < 1)
    (_hs0 : 0 ≤ r.uStatus) (hs1 : r.uStatus < 1) :
    ii % 6 < symbols.length ∧ ii % 6 < cusips.length ∧
    ii % 5 < venues.length ∧ ii % 4 < traders.length ∧ ii % 3 < books.length ∧
    (javaRound (r.uCounterparty * 7)).toNat < counterparties.length ∧
    (javaRound (r.uStatus * 4)).toNat < statuses.length := by
  have hc : javaRound (r.uCounterparty * 7) < 8 :=
    Int.floor_lt.mpr (by push_cast; linarith)
  have hs : javaRound (r.uStatus * 4) < 5 :=
    Int.floor_lt.mpr (by push_cast; linarith)
  refine ⟨?_, ?_, ?_, ?_, ?_, ?_, ?_⟩
  · exact Nat.mod_lt ii (by norm_num)
  · exact Nat.mod_lt ii (by norm_num)
  · exact Nat.mod_lt ii (by norm_num)
  · exact Nat.mod_lt ii (by norm_num)
  · exact Nat.mod_lt ii (by norm_num)
  · rw [show counterparties.length = 8 from rfl]
    omega
  · rw [show statuses.length = 5 from rfl]
    omega

/-- Closed witness for C8 at `ii = 0` with draws of `9/10`. -/
theorem c8_index_bounds_witness :
    0 % 6 < symbols.length ∧ 0 % 6 < cusips.length ∧
    0 % 5 < venues.length ∧ 0 % 4 < traders.length ∧ 0 % 3 < books.length ∧
    (javaRound (drawsB.uCounterparty * 7)).toNat < counterparties.length ∧
    (javaRound (drawsB.uStatus * 4)).toNat < statuses.length :=
  c8_index_bounds 0 drawsB (by norm_num [drawsB]) (by norm_num [drawsB])
    (by norm_num [drawsB]) (by norm_num [drawsB])

set_option maxRecDepth 4000 in
/-- The `%04d` padding yields exactly 4 characters for every `n < 500`. -/
theorem formatD4_length : ∀ n, n < 500 → (formatD 4 n).length = 4 := by decide

/-- C9: for every row index, OrderId is "ORD-" followed by `ii % 500`
zero-padded to 4 digits (the padded part always has exactly 4 characters). -/
theorem c9_orderid (ii : Nat) (r : RandDraws) :
    (synthesize ii r).OrderId = "ORD-" ++ formatD 4 (ii % 500) ∧
    (formatD 4 (ii % 500)).length = 4 :=
  ⟨rfl, formatD4_length (ii % 500) (Nat.mod_lt ii (by norm_num))⟩

/-- C10: for all uniform draws in `[0,1)`, Price is `99 + k/128` for an
integer `0 ≤ k ≤ 400`, hence `99 ≤ Price ≤ 102.125`. -/
theorem c10_price_range (ii : Nat) (r : RandDraws)
    (h0 : 0 ≤ r.uPrice) (h1 : r.uPrice < 1) :
    ∃ k : ℤ, 0 ≤ k ∧ k ≤ 400 ∧
      (synthesize ii r).Price = 99 + (k : ℚ) / 128 ∧
      99 ≤ (synthesize ii r).Price ∧ (synthesize ii r).Price ≤ 102.125 := by
  have e : (synthesize ii r).Price = 99 + (javaRound (r.uPrice * 400) : ℚ) / 128 := rfl
  have hk : javaRound (r.uPrice * 400) = ⌊r.uPrice * 400 + 1/2⌋ := rfl
  have hnn : 0 ≤ javaRound (r.uPrice * 400) := by
    rw [hk]
    exact Int.floor_nonneg.mpr (by linarith)
  have hub : javaRound (r.uPrice * 400) < 401 := by
    rw [hk]
    exact Int.floor_lt.mpr (by push_cast; linarith)
  refine ⟨javaRound (r.uPrice * 400), hnn, by omega, e, ?_, ?_⟩
  · rw [e]
    have : (0 : ℚ) ≤ (javaRound (r.uPrice * 400) : ℚ) := by exact_mod_cast hnn
    linarith
  · rw [e]
    have : (javaRound (r.uPrice * 400) : ℚ) ≤ 400 := by exact_mod_cast (by omega : javaRound (r.uPrice * 400) ≤ 400)
    norm_num
    linarith

/-- Closed witness for C10 at draws of `9/10`. -/
theorem c10_price_range_witness :
    ∃ k : ℤ, 0 ≤ k ∧ k ≤ 400 ∧
      (synthesize 0 drawsB).Price = 99 + (k : ℚ) / 128 ∧
      99 ≤ (synthesize 0 drawsB).Price ∧ (synthesize 0 drawsB).Price ≤ 102.125 :=
  c10_price_range 0 drawsB (by norm_num [drawsB]) (by norm_num [drawsB])

/-- Value of the status table at each admissible index: "FILLED" at indices
0, 1, 2, "PARTIAL" at 3, "REJECTED" at 4. -/
theorem statuses_getD_cases (k : ℤ) (hk0 : 0 ≤ k) (hk5 : k < 5) :
    (statuses.getD k.toNat ("") = "FILLED" ↔ k ≤ 2) ∧
    (statuses.getD k.toNat ("") = "PARTIAL" ↔ k = 3) ∧
    (statuses.getD k.toNat ("") = "REJECTED" ↔ k = 4) := by
  interval_cases k <;> exact ⟨by decide, by decide, by decide⟩

/-- Modelled from the spec: "a uniform pick over a small table" of 5 slots,
each slot having probability exactly 1/5 — slot index `⌊u * 5⌋` for a
uniform draw `u` in `[0,1)`. -/
def execStatusUniform5 (u : ℚ) : String := statuses.getD (⌊u * 5⌋).toNat ("")

/-- C2 counterexample: at the draw `u = 61/100` the code computes index
`round(61/100 * 4) = round(2.44) = 2`, giving "FILLED", while a uniform
5-slot pick lands in slot `⌊61/100 * 5⌋ = 3`, giving "PARTIAL": the code's
FILLED region is `[0, 5/8)`, not the claimed measure `3/5`. -/
theorem c2_counterexample :
    (synthesize 0 ⟨0, 0, 0, 0, 61/100⟩).ExecStatus = "FILLED" ∧
    execStatusUniform5 (61/100) = "PARTIAL" := by
  constructor
  · have e : (synthesize 0 ⟨0, 0, 0, 0, 61/100⟩).ExecStatus =
        statuses.getD (javaRound ((61/100 : ℚ) * 4)).toNat ("") := rfl
    have h : javaRound ((61/100 : ℚ) * 4) = 2 := by
      unfold javaRound
      rw [Int.floor_eq_iff]
      norm_num
    rw [e, h]
    rfl
  · have h : ⌊(61/100 : ℚ) * 5⌋ = 3 := by
      rw [Int.floor_eq_iff]
      norm_num
    unfold execStatusUniform5
    rw [h]
    rfl

/-- C2 (amended): ExecStatus is the 5-slot table at index `round(u * 4)`;
for a uniform draw `u` in `[0,1)` the result is "FILLED" exactly on
`[0, 5/8)`, "PARTIAL" exactly on `[5/8, 7/8)` and "REJECTED" exactly on
`[7/8, 1)`, so the probabilities are 5/8, 1/4 and 1/8 — not 3/5, 1/5, 1/5. -/
theorem c2_execstatus_regions (ii : Nat) (r : RandDraws)
    (h0 : 0 ≤ r.uStatus) (h1 : r.uStatus < 1) :
    ((synthesize ii r).ExecStatus = "FILLED" ↔ r.uStatus < 5/8) ∧
    ((synthesize ii r).ExecStatus = "PARTIAL" ↔ 5/8 ≤ r.uStatus ∧ r.uStatus < 7/8) ∧
    ((synthesize ii r).ExecStatus = "REJECTED" ↔ 7/8 ≤ r.uStatus) := by
  have e : (synthesize ii r).ExecStatus =
      statuses.getD (javaRound (r.uStatus * 4)).toNat ("") := rfl
  have hk : javaRound (r.uStatus * 4) = ⌊r.uStatus * 4 + 1/2⌋ := rfl
  have hk0 : 0 ≤ javaRound (r.uStatus * 4) := by
    rw [hk]
    exact Int.floor_nonneg.mpr (by linarith)
  have hk5 : javaRound (r.uStatus * 4) < 5 := by
    rw [hk]
    exact Int.floor_lt.mpr (by push_cast; linarith)
  have key3 : javaRound (r.uStatus * 4) < 3 ↔ r.uStatus < 5/8 := by
    rw [hk, Int.floor_lt]
    push_cast
    constructor <;> intro h <;> linarith
  have key4 : javaRound (r.uStatus * 4) < 4 ↔ r.uStatus < 7/8 := by
    rw [hk, Int.floor_lt]
    push_cast
    constructor <;> intro h <;> linarith
  obtain ⟨hF, hP, hR⟩ := statuses_getD_cases (javaRound (r.uStatus * 4)) hk0 hk5
  refine ⟨?_, ?_, ?_⟩
  · rw [e, hF, show (javaRound (r.uStatus * 4) ≤ 2 ↔
      javaRound (r.uStatus * 4) < 3) from by omega, key3]
  · rw [e, hP, show (javaRound (r.uStatus * 4) = 3 ↔
      ¬ javaRound (r.uStatus * 4) < 3 ∧ javaRound (r.uStatus * 4) < 4) from by omega,
      key3, key4, not_lt]
  · rw [e, hR, show (javaRound (r.uStatus * 4) = 4 ↔
      ¬ javaRound (r.uStatus * 4) < 4) from by omega, key4, not_lt]

/-- Closed witness for C2 (amended): at the draw `0` the status is "FILLED". -/
theorem c2_execstatus_regions_witness :
    (synthesize 0 drawsA).ExecStatus = "FILLED" :=
  ((c2_execstatus_regions 0 drawsA (by norm_num [drawsA])
    (by norm_num [drawsA])).1).mpr (by norm_num [drawsA])

/-- Value of the counterparty table at each admissible index. -/
theorem counterparties_getD_cases (k : ℤ) (hk0 : 0 ≤ k) (hk8 : k < 8) :
    (counterparties.getD k.toNat ("") = "GS" ↔ k = 0) ∧
    (counterparties.getD k.toNat ("") = "JPM" ↔ k = 1) ∧
    (counterparties.getD k.toNat ("") = "MS" ↔ k = 2) ∧
    (counterparties.getD k.toNat ("") = "BARC" ↔ k = 3) ∧
    (counterparties.getD k.toNat ("") = "CITI" ↔ k = 4) ∧
    (counterparties.getD k.toNat ("") = "BofA" ↔ k = 5) ∧
    (counterparties.getD k.toNat ("") = "HSBC" ↔ k = 6) ∧
    (counterparties.getD k.toNat ("") = "DB" ↔ k = 7) := by
  interval_cases k <;>
    exact ⟨by decide, by decide, by decide, by decide, by decide, by decide,
      by decide, by decide⟩

/-- Modelled from the spec: a uniform pick among the 8 counterparty values,
each selected with probability exactly 1/8 — index `⌊u * 8⌋` for a uniform
draw `u` in `[0,1)`. -/
def counterpartyUniform8 (u : ℚ) : String := counterparties.getD (⌊u * 8⌋).toNat ("")

/-- C3 counterexample: at the draw `u = 1/10` the code computes index
`round(1/10 * 7) = round(0.7) = 1`, giving "JPM", while a uniform pick among
8 values lands at `⌊1/10 * 8⌋ = 0`, giving "GS": the code's pick is not the
claimed uniform-1/8 pick. -/
theorem c3_counterexample :
    (synthesize 0 ⟨0, 0, 0, 1/10, 0⟩).Counterparty = "JPM" ∧
    counterpartyUniform8 (1/10) = "GS" := by
  constructor
  · have e : (synthesize 0 ⟨0, 0, 0, 1/10, 0⟩).Counterparty =
        counterparties.getD (javaRound ((1/10 : ℚ) * 7)).toNat ("") := rfl
    have h : javaRound ((1/10 : ℚ) * 7) = 1 := by
      unfold javaRound
      rw [Int.floor_eq_iff]
      norm_num
    rw [e, h]
    rfl
  · have h : ⌊(1/10 : ℚ) * 8⌋ = 0 := by
      rw [Int.floor_eq_iff]
      norm_num
    unfold counterpartyUniform8
    rw [h]
    rfl

/-- C3 (amended): Counterparty is the 8-value table at index `round(u * 7)`;
for a uniform draw `u` in `[0,1)` the value is "GS" exactly on `[0, 1/14)`,
"DB" exactly on `[13/14, 1)` (probability 1/14 each), and each of the middle
six values on an interval of length 2/14 = 1/7 — not the claimed uniform
1/8 per value. -/
theorem c3_counterparty_regions (ii : Nat) (r : RandDraws)
    (h0 : 0 ≤ r.uCounterparty) (h1 : r.uCounterparty < 1) :
    ((synthesize ii r).Counterparty = "GS" ↔ r.uCounterparty < 1/14) ∧
    ((synthesize ii r).Counterparty = "JPM" ↔
      1/14 ≤ r.uCounterparty ∧ r.uCounterparty < 3/14) ∧
    ((synthesize ii r).Counterparty = "MS" ↔
      3/14 ≤ r.uCounterparty ∧ r.uCounterparty < 5/14) ∧
    ((synthesize ii r).Counterparty = "BARC" ↔
      5/14 ≤ r.uCounterparty ∧ r.uCounterparty < 7/14) ∧
    ((synthesize ii r).Counterparty = "CITI" ↔
      7/14 ≤ r.uCounterparty ∧ r.uCounterparty < 9/14) ∧
    ((synthesize ii r).Counterparty = "BofA" ↔
      9/14 ≤ r.uCounterparty ∧ r.uCounterparty < 11/14) ∧
    ((synthesize ii r).Counterparty = "HSBC" ↔
      11/14 ≤ r.uCounterparty ∧ r.uCounterparty < 13/14) ∧
    ((synthesize ii r).Counterparty = "DB" ↔ 13/14 ≤ r.uCounterparty) := by
  set u := r.uCounterparty with hu
  have e : (synthesize ii r).Counterparty =
      counterparties.getD (javaRound (u * 7)).toNat ("") := rfl
  have hk : javaRound (u * 7) = ⌊u * 7 + 1/2⌋ := rfl
  have hk0 : 0 ≤ javaRound (u * 7) := by
    rw [hk]
    exact Int.floor_nonneg.mpr (by linarith)
  have hk8 : javaRound (u * 7) < 8 := by
    rw [hk]
    exact Int.floor_lt.mpr (by push_cast; linarith)
  have key : ∀ j : ℤ, javaRound (u * 7) < j ↔ u < (2 * (j : ℚ) - 1) / 14 := by
    intro j
    rw [hk, Int.floor_lt]
    constructor <;> intro h <;> [push_cast at h; push_cast] <;> linarith
  obtain ⟨e0, e1, e2, e3, e4, e5, e6, e7⟩ :=
    counterparties_getD_cases (javaRound (u * 7)) hk0 hk8
  have k1 := key 1
  have k2 := key 2
  have k3 := key 3
  have k4 := key 4
  have k5 := key 5
  have k6 := key 6
  have k7 := key 7
  norm_num at k1 k2 k3 k4 k5 k6 k7
  refine ⟨?_, ?_, ?_, ?_, ?_, ?_, ?_, ?_⟩
  · rw [e, e0, show (javaRound (u * 7) = 0 ↔ javaRound (u * 7) < 1) from by omega, k1]
  · rw [e, e1, show (javaRound (u * 7) = 1 ↔
      ¬ javaRound (u * 7) < 1 ∧ javaRound (u * 7) < 2) from by omega, k1, k2, not_lt]
  · rw [e, e2, show (javaRound (u * 7) = 2 ↔
      ¬ javaRound (u * 7) < 2 ∧ javaRound (u * 7) < 3) from by omega, k2, k3, not_lt]
  · rw [e, e3, show (javaRound (u * 7) = 3 ↔
      ¬ javaRound (u * 7) < 3 ∧ javaRound (u * 7) < 4) from by omega, k3, k4, not_lt]
    norm_num
  · rw [e, e4, show (javaRound (u * 7) = 4 ↔
      ¬ javaRound (u * 7) < 4 ∧ javaRound (u * 7) < 5) from by omega, k4, k5, not_lt]
    norm_num
  · rw [e, e5, show (javaRound (u * 7) = 5 ↔
      ¬ javaRound (u * 7) < 5 ∧ javaRound (u * 7) < 6) from by omega, k5, k6, not_lt]
  · rw [e, e6, show (javaRound (u * 7) = 6 ↔
      ¬ javaRound (u * 7) < 6 ∧ javaRound (u * 7) < 7) from by omega, k6, k7, not_lt]
  · rw [e, e7, show (javaRound (u * 7) = 7 ↔
      ¬ javaRound (u * 7) < 7) from by omega, k7, not_lt]

/-- Closed witness for C3 (amended): at the draw `9/10` the counterparty is
"HSBC" (since `11/14 ≤ 9/10 < 13/14`, i.e. `round(6.3) = 6`). -/
theorem c3_counterparty_regions_witness :
    (synthesize 0 drawsB).Counterparty = "HSBC" :=
  ((c3_counterparty_regions 0 drawsB (by norm_num [drawsB])
    (by norm_num [drawsB])).2.2.2.2.2.2.1).mpr
    ⟨by norm_num [drawsB], by norm_num [drawsB]⟩
